import Mathlib

/-!
# Recognition session controller (`src/index.js`)

A shallow embedding of the event handlers of `src/index.js` (the branch taken
when the browser exposes `SpeechRecognition`), and the properties of the
start / stop / restart state machine they implement.

The two module-level variables (`isListening`, `accumulatedText`) and the
properties of the DOM objects and of the engine object that the handlers read
or write (`recognition.lang`, `transcriptElement.value`,
`languageSelector.value`, `statusElement.textContent`) are the fields of
`State`.  Calls on the engine (`recognition.start()`, `recognition.stop()`)
and assignments to the status readout are appended, in program order, to
`State.log`.  `console.log` / `console.error` calls have no effect on any of
these and are left out.  An engine request returns normally (the engine
reports failure through its `onerror` reaction).
-/

namespace SpeechToText

/-! ## Strings -/

/-- Code points removed by ECMAScript `String.prototype.trim`: the `WhiteSpace`
production (TAB, VT, FF, ZWNBSP and the Unicode category `Zs`) together with the
`LineTerminator` production (LF, CR, LS, PS). -/
def isTrimChar (c : Char) : Bool :=
  let n := c.toNat
  n = 0x09 || n = 0x0A || n = 0x0B || n = 0x0C || n = 0x0D || n = 0x20 ||
  n = 0xA0 || n = 0x1680 || (0x2000 ≤ n && n ≤ 0x200A) ||
  n = 0x2028 || n = 0x2029 || n = 0x202F || n = 0x205F || n = 0x3000 || n = 0xFEFF

/-- The characters of a string with leading, then trailing, trim characters
removed. -/
def trimChars (cs : List Char) : List Char :=
  ((cs.dropWhile isTrimChar).reverse.dropWhile isTrimChar).reverse

/-- ECMAScript `String.prototype.trim`. -/
def jsTrim (s : String) : String := ⟨trimChars s.data⟩

/-! ## State and effects -/

/-- An externally visible action of a handler. -/
inductive Effect where
  /-- Call of `recognition.start()`, with the value of `recognition.lang` at the call. -/
  | engineStart (lang : String)
  /-- Call of `recognition.stop()`. -/
  | engineStop
  /-- Assignment `statusElement.textContent = text`. -/
  | setStatus (text : String)
  deriving DecidableEq, Repr

structure State where
  /-- Variable `isListening`. -/
  isListening : Bool
  /-- Variable `accumulatedText`. -/
  accumulatedText : String
  /-- Property `recognition.lang`. -/
  lang : String
  /-- Property `transcriptElement.value`. -/
  transcriptValue : String
  /-- Property `languageSelector.value`. -/
  selectorValue : String
  /-- Property `statusElement.textContent`. -/
  status : String
  /-- Engine requests and status assignments so far, oldest first. -/
  log : List Effect
  deriving DecidableEq, Repr

/-- State after the initialisation code (lines 21-27) has run, for a page
whose text area holds `text`, whose selector holds `sel` and whose status
readout holds `status`. -/
def init (text sel status : String) : State :=
  { isListening := false
    accumulatedText := ""
    lang := sel
    transcriptValue := text
    selectorValue := sel
    status := status
    log := [] }

/-- Assignment `statusElement.textContent = text`. -/
def State.setStatus (s : State) (text : String) : State :=
  { s with status := text, log := s.log ++ [Effect.setStatus text] }

/-- Call of `recognition.start()`. -/
def State.engineStart (s : State) : State :=
  { s with log := s.log ++ [Effect.engineStart s.lang] }

/-- Call of `recognition.stop()`. -/
def State.engineStop (s : State) : State :=
  { s with log := s.log ++ [Effect.engineStop] }

/-! ## Handlers -/

/-- Handler `recognition.onresult`; `transcript` is `event.results[0][0].transcript`. -/
def onresult (s : State) (transcript : String) : State :=
  let transcript := jsTrim transcript
  let s := { s with accumulatedText := s.accumulatedText ++ (" " ++ transcript) }
  { s with transcriptValue := s.accumulatedText }

/-- Handler `recognition.onend`. -/
def onend (s : State) : State :=
  if s.isListening then
    let s := s.setStatus "Estado: Reiniciando..."
    let s := s.engineStart
    s.setStatus "Estado: Escuchando..."
  else
    s.setStatus "Estado: Detenido."

/-- Handler `recognition.onerror`; `error` is `event.error`. -/
def onerror (s : State) (error : String) : State :=
  s.setStatus ("Error: " ++ error)

/-- Click handler of `startBtn`. -/
def startClick (s : State) : State :=
  if !s.isListening then
    let s := { s with accumulatedText := s.transcriptValue }
    let s := { s with lang := s.selectorValue }
    let s := s.engineStart
    let s := { s with isListening := true }
    s.setStatus "Estado: Escuchando..."
  else
    s

/-- Click handler of `stopBtn`. -/
def stopClick (s : State) : State :=
  if s.isListening then
    let s := s.engineStop
    let s := { s with isListening := false }
    s.setStatus "Estado: Detenido."
  else
    s

/-! ## Events and runs -/

/-- The two user actions, the three engine reactions, and the two ways the
user changes the page between handlers. -/
inductive Event where
  /-- Click on `startBtn`. -/
  | start
  /-- Click on `stopBtn`. -/
  | stop
  /-- Engine delivers `onresult` with recognised text `text`. -/
  | onResult (text : String)
  /-- Engine delivers `onend`. -/
  | onEnd
  /-- Engine delivers `onerror` with error code `code`. -/
  | onError (code : String)
  /-- User picks `value` in `languageSelector`. -/
  | select (value : String)
  /-- User edits the text area so that it holds `text`. -/
  | edit (text : String)
  deriving DecidableEq, Repr

/-- One event, handled to completion. -/
def step (s : State) : Event → State
  | .start => startClick s
  | .stop => stopClick s
  | .onResult text => onresult s text
  | .onEnd => onend s
  | .onError code => onerror s code
  | .select value => { s with selectorValue := value }
  | .edit text => { s with transcriptValue := text }

/-- Events handled one at a time, in order. -/
def run (s : State) (evs : List Event) : State :=
  evs.foldl step s

/-- A call of one of the two user actions. -/
inductive Call where
  | start
  | stop
  deriving DecidableEq, Repr

/-- The event of a call. -/
def Call.toEvent : Call → Event
  | .start => Event.start
  | .stop => Event.stop

/-- A sequence of `start()` / `stop()` calls. -/
def runCalls (s : State) (cs : List Call) : State :=
  run s (cs.map Call.toEvent)

/-! ## Observations on the log -/

/-- Whether an effect is an engine start request. -/
def Effect.isStart : Effect → Bool
  | .engineStart _ => true
  | _ => false

/-- Whether an effect is a request to the engine (start or stop). -/
def Effect.isRequest : Effect → Bool
  | .engineStart _ => true
  | .engineStop => true
  | .setStatus _ => false

/-- Number of engine start requests issued so far. -/
def startRequests (s : State) : Nat :=
  (s.log.filter Effect.isStart).length

/-- The engine requests issued so far, oldest first. -/
def engineRequests (s : State) : List Effect :=
  s.log.filter Effect.isRequest

/-- Whether handling `e` in state `s` issues an engine start request. -/
def issuesStart (s : State) (e : Event) : Bool :=
  decide (startRequests s < startRequests (step s e))

/-! ## Engine sessions

A session is active from the moment the controller requests engine start until
that session's `onend` reaction is delivered.  `Sessions` follows a run from
outside: `active` counts the sessions that are active, `overlap` records
whether some start request was issued while a session was active. -/

structure Sessions where
  active : Nat
  overlap : Bool
  deriving DecidableEq, Repr

/-- Effect of handling `e` in state `s` on the sessions: an `onEnd` delivery
ends a session before the handler runs; a start request issued by the handler
begins one. -/
def observe (s : State) (g : Sessions) (e : Event) : Sessions :=
  let active := if e = Event.onEnd then g.active - 1 else g.active
  if issuesStart s e then
    { active := active + 1, overlap := g.overlap || decide (0 < active) }
  else
    { active := active, overlap := g.overlap }

/-- The sessions after a run from state `s` with sessions `g`. -/
def observeRun (s : State) (g : Sessions) : List Event → Sessions
  | [] => g
  | e :: es => observeRun (step s e) (observe s g e) es

/-- No `start()` call is made while a stopped session is still waiting for its
`onend`: at every `start` event of the run, the flag is set or no session is
active. -/
def startsSettled (s : State) (g : Sessions) : List Event → Bool
  | [] => true
  | e :: es =>
    (if e = Event.start then s.isListening || decide (g.active = 0) else true) &&
      startsSettled (step s e) (observe s g e) es

/-! ## Specification-side definitions -/

/-- The text `" " ++ trim t1 ++ ... ++ " " ++ trim tn` appended by results
`t1 .. tn`. -/
def fragments : List String → String
  | [] => ""
  | t :: ts => (" " ++ jsTrim t) ++ fragments ts

/-- The selector value at the most recent `start` event of the run that was
handled with the listening flag false, or `dflt` when there is none. -/
def selectorAtAcceptedStart (s : State) (dflt : String) : List Event → String
  | [] => dflt
  | e :: es =>
    selectorAtAcceptedStart (step s e)
      (if e = Event.start ∧ s.isListening = false then s.selectorValue else dflt) es

/-! ## Basic facts about the handlers -/

theorem startClick_of_listening (s : State) (h : s.isListening = true) :
    startClick s = s := by
  simp [startClick, h]

theorem stopClick_of_idle (s : State) (h : s.isListening = false) :
    stopClick s = s := by
  simp [stopClick, h]

theorem startClick_isListening (s : State) : (startClick s).isListening = true := by
  cases h : s.isListening <;> simp [startClick, State.setStatus, State.engineStart, h]

theorem stopClick_isListening (s : State) : (stopClick s).isListening = false := by
  cases h : s.isListening <;> simp [stopClick, State.setStatus, State.engineStop, h]

theorem run_append (s : State) (xs ys : List Event) :
    run s (xs ++ ys) = run (run s xs) ys := by
  simp [run, List.foldl_append]

theorem startRequests_onend (s : State) :
    startRequests (onend s) = startRequests s + (if s.isListening then 1 else 0) := by
  cases h : s.isListening <;>
    simp [onend, startRequests, State.setStatus, State.engineStart, h, List.filter_append,
      Effect.isStart]

theorem startRequests_startClick (s : State) :
    startRequests (startClick s) = startRequests s + (if s.isListening then 0 else 1) := by
  cases h : s.isListening <;>
    simp [startClick, startRequests, State.setStatus, State.engineStart, h, List.filter_append,
      Effect.isStart]

theorem startRequests_stopClick (s : State) :
    startRequests (stopClick s) = startRequests s := by
  cases h : s.isListening <;>
    simp [stopClick, startRequests, State.setStatus, State.engineStop, h, List.filter_append,
      Effect.isStart]

theorem startRequests_onerror (s : State) (c : String) :
    startRequests (onerror s c) = startRequests s := by
  simp [onerror, startRequests, State.setStatus, List.filter_append, Effect.isStart]

/-! ## The listening flag under start / stop calls -/

theorem runCalls_concat (s : State) (cs : List Call) (c : Call) :
    runCalls s (cs ++ [c]) = step (runCalls s cs) c.toEvent := by
  simp [runCalls, run, List.foldl_append]

/-- C2: after a non-empty sequence of `start()` / `stop()` calls from any state
the listening flag is true exactly when the last call was `start()`; after the
empty sequence from the initial state it is false. -/
theorem listening_iff_last_call_start (s : State) (cs : List Call) (h : cs ≠ []) :
    ((runCalls s cs).isListening = true ↔ cs.getLast? = some Call.start) ∧
      ∀ text sel status : String, (runCalls (init text sel status) []).isListening = false := by
  refine ⟨?_, fun _ _ _ => rfl⟩
  obtain ⟨ds, c, rfl⟩ : ∃ ds c, cs = ds ++ [c] :=
    ⟨cs.dropLast, cs.getLast h, (List.dropLast_append_getLast h).symm⟩
  rw [runCalls_concat, List.getLast?_append]
  cases c
  · simp [Call.toEvent, step, startClick_isListening]
  · simp [Call.toEvent, step, stopClick_isListening]

theorem listening_iff_last_call_start_witness :
    [Call.start, Call.stop, Call.start] ≠ [] ∧
      ((runCalls (init "hola" "es-ES" "") [Call.start, Call.stop, Call.start]).isListening = true ↔
        [Call.start, Call.stop, Call.start].getLast? = some Call.start) :=
  ⟨by decide,
    (listening_iff_last_call_start (init "hola" "es-ES" "") [Call.start, Call.stop, Call.start]
      (by decide)).1⟩

/-! ## Restart on end of session -/

/-- C3: when the listening flag is true, `onend` writes the status
"Estado: Reiniciando...", issues one engine start request and writes the
status "Estado: Escuchando...", in that order and nothing else; the number of
start requests grows by exactly one, the flag stays true and the accumulated
transcript is unchanged. -/
theorem onend_restarts_when_listening (s : State) (h : s.isListening = true) :
    (onend s).log = s.log ++ [Effect.setStatus "Estado: Reiniciando...",
        Effect.engineStart s.lang, Effect.setStatus "Estado: Escuchando..."] ∧
      startRequests (onend s) = startRequests s + 1 ∧
      (onend s).isListening = true ∧
      (onend s).accumulatedText = s.accumulatedText ∧
      (onend s).status = "Estado: Escuchando..." := by
  refine ⟨?_, ?_, ?_, ?_, ?_⟩
  · simp [onend, h, State.setStatus, State.engineStart]
  · simp [startRequests_onend, h]
  · simp [onend, h, State.setStatus, State.engineStart]
  · simp [onend, h, State.setStatus, State.engineStart]
  · simp [onend, h, State.setStatus, State.engineStart]

theorem onend_restarts_when_listening_witness :
    (run (init "" "es-ES" "") [Event.start, Event.onResult "testing"]).isListening = true ∧
      (run (init "" "es-ES" "") [Event.start, Event.onResult "testing", Event.onEnd]).accumulatedText
        = " testing" ∧
      startRequests (run (init "" "es-ES" "") [Event.start, Event.onResult "testing", Event.onEnd])
        = startRequests (run (init "" "es-ES" "") [Event.start, Event.onResult "testing"]) + 1 ∧
      (run (init "" "es-ES" "") [Event.start, Event.onResult "testing", Event.onEnd]).status
        = "Estado: Escuchando..." :=
  have h := onend_restarts_when_listening
    (run (init "" "es-ES" "") [Event.start, Event.onResult "testing"]) (by decide)
  ⟨by decide, by decide, h.2.1, h.2.2.2.2⟩

/-! ## No restart after stop -/

/-- C4: from any state, `stop()` followed by the delivery of `onend` issues no
engine start request, leaves the listening flag false and the status reading
"Estado: Detenido.". -/
theorem no_restart_after_stop (s : State) :
    startRequests (onend (stopClick s)) = startRequests s ∧
      (onend (stopClick s)).isListening = false ∧
      (onend (stopClick s)).status = "Estado: Detenido." := by
  have hf := stopClick_isListening s
  refine ⟨?_, ?_, ?_⟩
  · rw [startRequests_onend, startRequests_stopClick]; simp [hf]
  · simp [onend, hf, State.setStatus]
  · simp [onend, hf, State.setStatus]

/-! ## Accumulation of results -/

theorem trimChars_head_not_trim (cs : List Char) :
    ∀ c, (trimChars cs).head? = some c → isTrimChar c = false := by
  intro c hc
  have hp : trimChars cs <+: cs.dropWhile isTrimChar := List.rdropWhile_prefix isTrimChar _
  obtain ⟨r, hr⟩ := hp
  have h1 : (cs.dropWhile isTrimChar).head? = some c := by
    rw [← hr]
    cases ht : trimChars cs with
    | nil => simp [ht] at hc
    | cons x xs => simpa [ht] using hc
  have h2 := List.head?_dropWhile_not isTrimChar cs
  rw [h1] at h2
  simpa using h2

theorem trimChars_getLast_not_trim (cs : List Char) :
    ∀ c, (trimChars cs).getLast? = some c → isTrimChar c = false := by
  intro c hc
  have hne : List.rdropWhile isTrimChar (cs.dropWhile isTrimChar) ≠ [] := by
    intro h0
    have : trimChars cs = [] := h0
    simp [this] at hc
  have h := List.rdropWhile_last_not isTrimChar (cs.dropWhile isTrimChar) hne
  have hc2 : (List.rdropWhile isTrimChar (cs.dropWhile isTrimChar)).getLast? = some c := hc
  rw [List.getLast?_eq_getLast _ hne] at hc2
  simp only [Option.some.injEq] at hc2
  rw [hc2] at h
  simpa using h

theorem run_onResults (s : State) (ts : List String) :
    (run s (ts.map Event.onResult)).accumulatedText = s.accumulatedText ++ fragments ts ∧
      (ts ≠ [] → (run s (ts.map Event.onResult)).transcriptValue
        = s.accumulatedText ++ fragments ts) ∧
      (run s (ts.map Event.onResult)).isListening = s.isListening ∧
      (run s (ts.map Event.onResult)).status = s.status ∧
      (run s (ts.map Event.onResult)).lang = s.lang ∧
      (run s (ts.map Event.onResult)).selectorValue = s.selectorValue ∧
      (run s (ts.map Event.onResult)).log = s.log := by
  induction ts using List.reverseRecOn with
  | nil => simp [run, fragments]
  | append_singleton ts t ih =>
    have hf : ∀ us : List String, fragments (us ++ [t]) = fragments us ++ (" " ++ jsTrim t) := by
      intro us
      induction us with
      | nil => simp [fragments]
      | cons u us ihu => simp [fragments, ihu, String.append_assoc]
    obtain ⟨h1, -, h3, h4, h5, h6, h7⟩ := ih
    rw [List.map_append, run_append]
    simp only [List.map_cons, List.map_nil, run, List.foldl_cons, List.foldl_nil, step, onresult]
    simp only [run] at h1 h3 h4 h5 h6 h7
    simp [h1, h3, h4, h5, h6, h7, hf, String.append_assoc]

/-- C5: results `t1 .. tn` (`n ≥ 1`) delivered in order to `onresult` leave the
accumulated transcript and the displayed text both equal to the prior
accumulated transcript followed by `" " ++ trim t1`, ..., `" " ++ trim tn`,
where no `trim t` begins or ends with a white space or line terminator; the
listening flag, the status, the engine language, the selector and the log are
unchanged. -/
theorem onresult_accumulates (s : State) (ts : List String) (h : ts ≠ []) :
    (run s (ts.map Event.onResult)).accumulatedText = s.accumulatedText ++ fragments ts ∧
      (run s (ts.map Event.onResult)).transcriptValue = s.accumulatedText ++ fragments ts ∧
      (∀ t c, (jsTrim t).data.head? = some c ∨ (jsTrim t).data.getLast? = some c →
        isTrimChar c = false) ∧
      (run s (ts.map Event.onResult)).isListening = s.isListening ∧
      (run s (ts.map Event.onResult)).status = s.status ∧
      (run s (ts.map Event.onResult)).lang = s.lang ∧
      (run s (ts.map Event.onResult)).log = s.log := by
  obtain ⟨h1, h2, h3, h4, h5, -, h7⟩ := run_onResults s ts
  refine ⟨h1, h2 h, ?_, h3, h4, h5, h7⟩
  rintro t c (hc | hc)
  · exact trimChars_head_not_trim t.data c hc
  · exact trimChars_getLast_not_trim t.data c hc

theorem onresult_accumulates_witness :
    ["hello", "world"] ≠ [] ∧
      (run (init "" "en-US" "") [Event.edit "prior", Event.start, Event.onResult "hello",
        Event.onResult "world"]).accumulatedText = "prior hello world" ∧
      (run (init "" "en-US" "") [Event.edit "prior", Event.start, Event.onResult "hello",
        Event.onResult "world"]).transcriptValue = "prior hello world" :=
  have h := onresult_accumulates (run (init "" "en-US" "") [Event.edit "prior", Event.start])
    ["hello", "world"] (by decide)
  ⟨by decide, h.1.trans (by decide), h.2.1.trans (by decide)⟩

/-! ## Guards of start and stop -/

/-- C6: with the listening flag true, `start()` changes nothing at all (flag,
accumulated transcript, displayed text, engine language, selector, status) and
issues no request, whatever the displayed text and the selector hold; and from
any state `start()` twice is `start()` once. -/
theorem start_while_listening_noop (s : State) (h : s.isListening = true) :
    startClick s = s ∧ ∀ s0 : State, startClick (startClick s0) = startClick s0 :=
  ⟨startClick_of_listening s h,
    fun s0 => startClick_of_listening (startClick s0) (startClick_isListening s0)⟩

theorem start_while_listening_noop_witness :
    (run (init "" "es-ES" "") [Event.start, Event.edit "typed", Event.select "en-US"]).isListening
        = true ∧
      startClick (run (init "" "es-ES" "") [Event.start, Event.edit "typed", Event.select "en-US"])
        = run (init "" "es-ES" "") [Event.start, Event.edit "typed", Event.select "en-US"] :=
  ⟨by decide,
    (start_while_listening_noop
      (run (init "" "es-ES" "") [Event.start, Event.edit "typed", Event.select "en-US"])
      (by decide)).1⟩

/-- C7: with the listening flag false, `stop()` changes nothing at all (flag,
accumulated transcript, displayed text, engine language, status) and issues no
engine stop request. -/
theorem stop_while_idle_noop (s : State) (h : s.isListening = false) :
    stopClick s = s ∧ engineRequests (stopClick s) = engineRequests s :=
  ⟨stopClick_of_idle s h, by rw [stopClick_of_idle s h]⟩

theorem stop_while_idle_noop_witness :
    (init "texto" "es-ES" "").isListening = false ∧
      stopClick (init "texto" "es-ES" "") = init "texto" "es-ES" "" :=
  ⟨by decide, (stop_while_idle_noop (init "texto" "es-ES" "") (by decide)).1⟩

/-! ## Errors -/

/-- C8: `onerror` with code `c` sets the status to `"Error: " ++ c` and does
nothing else: every other field is unchanged and the only new log entry is
that status assignment, so no engine request is issued; when the flag is true,
`onend` after `onerror` still issues exactly one start request. -/
theorem onerror_only_sets_status (s : State) (c : String) :
    onerror s c = { s with status := "Error: " ++ c,
                           log := s.log ++ [Effect.setStatus ("Error: " ++ c)] } ∧
      engineRequests (onerror s c) = engineRequests s ∧
      (s.isListening = true →
        startRequests (onend (onerror s c)) = startRequests s + 1 ∧
        (onend (onerror s c)).isListening = true) := by
  refine ⟨rfl, ?_, fun h => ⟨?_, ?_⟩⟩
  · simp [onerror, engineRequests, State.setStatus, List.filter_append, Effect.isRequest]
  · have hl : (onerror s c).isListening = true := h
    rw [startRequests_onend, startRequests_onerror]; simp [hl]
  · have hl : (onerror s c).isListening = true := h
    simp [onend, hl, State.setStatus, State.engineStart]

theorem onerror_only_sets_status_witness :
    (run (init "" "es-ES" "") [Event.start, Event.onError "not-allowed"]).status
        = "Error: not-allowed" ∧
      startRequests (run (init "" "es-ES" "") [Event.start, Event.onError "not-allowed",
        Event.onEnd]) = startRequests (run (init "" "es-ES" "") [Event.start]) + 1 :=
  ⟨by decide,
    ((onerror_only_sets_status (run (init "" "es-ES" "") [Event.start]) "not-allowed").2.2
      (by decide)).1⟩

/-! ## Engine language -/

theorem step_lang (s : State) (e : Event) :
    (step s e).lang
      = if e = Event.start ∧ s.isListening = false then s.selectorValue else s.lang := by
  cases e <;> cases h : s.isListening <;>
    simp [step, startClick, stopClick, onend, onerror, onresult, State.setStatus,
      State.engineStart, State.engineStop, h]

theorem run_lang (evs : List Event) (s : State) (d : String) (h : s.lang = d) :
    (run s evs).lang = selectorAtAcceptedStart s d evs := by
  induction evs generalizing s d with
  | nil => simpa [run, selectorAtAcceptedStart] using h
  | cons e es ih =>
    simp only [run, List.foldl_cons, selectorAtAcceptedStart]
    exact ih (step s e) _ (by rw [step_lang, h])

/-- C9: after any sequence of events from the initial state the engine
language is the selector value at the most recent `start()` handled with the
listening flag false, or the selector value at initialisation when there was
none; `onend` never changes it, and the start request it issues when the flag
is true carries that language whatever the selector holds by then. -/
theorem lang_read_only_at_accepted_start (text sel status : String) (evs : List Event) :
    (run (init text sel status) evs).lang
        = selectorAtAcceptedStart (init text sel status) sel evs ∧
      ∀ (s : State) (v : String),
        (onend { s with selectorValue := v }).lang = s.lang ∧
        (s.isListening = true →
          (onend { s with selectorValue := v }).log
            = s.log ++ [Effect.setStatus "Estado: Reiniciando...", Effect.engineStart s.lang,
                Effect.setStatus "Estado: Escuchando..."]) := by
  refine ⟨run_lang evs _ sel rfl, fun s v => ⟨?_, fun h => ?_⟩⟩
  · cases h : s.isListening <;> simp [onend, State.setStatus, State.engineStart, h]
  · simp [onend, State.setStatus, State.engineStart, h]

/-! ## Manual edits across start -/

/-- C10: when the text area holds `d` and the listening flag is false,
`start()` sets the accumulated transcript to `d` and leaves the displayed text
equal to `d`, so that the next `onresult` with text `t` displays
`d ++ " " ++ trim t`; the outcome does not depend on the accumulator's value
before `start()`. -/
theorem start_keeps_manual_edits (s : State) (d : String) (h : s.isListening = false) :
    (startClick (step s (Event.edit d))).accumulatedText = d ∧
      (startClick (step s (Event.edit d))).transcriptValue = d ∧
      ∀ t : String,
        (onresult (startClick (step s (Event.edit d))) t).transcriptValue
          = d ++ " " ++ jsTrim t ∧
        ∀ a : String,
          onresult (startClick (step { s with accumulatedText := a } (Event.edit d))) t
            = onresult (startClick (step s (Event.edit d))) t := by
  refine ⟨?_, ?_, fun t => ⟨?_, fun a => ?_⟩⟩
  · simp [step, startClick, State.setStatus, State.engineStart, h]
  · simp [step, startClick, State.setStatus, State.engineStart, h]
  · simp [step, startClick, onresult, State.setStatus, State.engineStart, h,
      String.append_assoc]
  · simp [step, startClick, onresult, State.setStatus, State.engineStart, h]

theorem start_keeps_manual_edits_witness :
    (run (init "" "es-ES" "") [Event.start, Event.onResult "uno", Event.stop,
        Event.onEnd]).isListening = false ∧
      (run (init "" "es-ES" "") [Event.start, Event.onResult "uno", Event.stop, Event.onEnd,
        Event.edit "nota:", Event.start, Event.onResult " dos "]).transcriptValue = "nota: dos" :=
  ⟨by decide,
    (((start_keeps_manual_edits
      (run (init "" "es-ES" "") [Event.start, Event.onResult "uno", Event.stop, Event.onEnd])
      "nota:" (by decide)).2.2 " dos ").1).trans (by decide)⟩

/-! ## At most one active session -/

theorem issuesStart_eq (s : State) (e : Event) :
    issuesStart s e
      = ((e = Event.start && !s.isListening) || (e = Event.onEnd && s.isListening)) := by
  cases e <;> cases h : s.isListening <;>
    simp [issuesStart, step, startRequests_startClick, startRequests_stopClick,
      startRequests_onend, startRequests_onerror, h] <;>
    simp [startRequests, onresult]

theorem step_isListening (s : State) (e : Event) :
    (step s e).isListening
      = if e = Event.start then true else if e = Event.stop then false else s.isListening := by
  cases e <;> cases h : s.isListening <;>
    simp [step, startClick, stopClick, onend, onerror, onresult, State.setStatus,
      State.engineStart, State.engineStop, h]

theorem observe_inv (s : State) (g : Sessions) (e : Event)
    (ho : g.overlap = false) (ha : g.active ≤ 1)
    (hl : s.isListening = true → g.active = 1)
    (hs : e = Event.start → s.isListening = true ∨ g.active = 0) :
    (observe s g e).overlap = false ∧ (observe s g e).active ≤ 1 ∧
      ((step s e).isListening = true → (observe s g e).active = 1) := by
  obtain ⟨a, o⟩ := g
  simp only at ho ha hl hs
  subst ho
  rw [step_isListening]
  cases e <;> cases h : s.isListening <;>
    simp [observe, issuesStart_eq, h] at hl hs ⊢ <;> omega

theorem observeRun_inv (evs : List Event) (s : State) (g : Sessions)
    (ho : g.overlap = false) (ha : g.active ≤ 1)
    (hl : s.isListening = true → g.active = 1)
    (hs : startsSettled s g evs = true) :
    (observeRun s g evs).overlap = false ∧ (observeRun s g evs).active ≤ 1 := by
  induction evs generalizing s g with
  | nil => exact ⟨ho, ha⟩
  | cons e es ih =>
    simp only [startsSettled, Bool.and_eq_true] at hs
    obtain ⟨h1, h2, h3⟩ := observe_inv s g e ho ha hl (by
      intro he
      have := hs.1
      simpa [he] using this)
    exact ih (step s e) (observe s g e) h1 h2 h3 hs.2

/-- C1 as stated fails: after `start()`, `stop()`, `start()` with no `onend`
delivered in between, the second start request is issued while the first
session is still active. -/
theorem start_stop_start_overlaps :
    (run (init "" "es-ES" "") [Event.start, Event.stop]).isListening = false ∧
      (observeRun (init "" "es-ES" "") ⟨0, false⟩ [Event.start, Event.stop]).active = 1 ∧
      issuesStart (run (init "" "es-ES" "") [Event.start, Event.stop]) Event.start = true ∧
      (observeRun (init "" "es-ES" "") ⟨0, false⟩
        [Event.start, Event.stop, Event.start]).overlap = true := by
  decide

/-- C1, amended: from the initial state, over every sequence of events in
which no `start()` is called while a stopped session still waits for its
`onend`, every engine start request is issued when no session is active, and
at most one session is active afterwards. -/
theorem single_session_when_starts_settled (text sel status : String) (evs : List Event)
    (h : startsSettled (init text sel status) ⟨0, false⟩ evs = true) :
    (observeRun (init text sel status) ⟨0, false⟩ evs).overlap = false ∧
      (observeRun (init text sel status) ⟨0, false⟩ evs).active ≤ 1 :=
  observeRun_inv evs _ _ rfl (Nat.zero_le 1) (fun hl => by simp [init] at hl) h

theorem single_session_when_starts_settled_witness :
    startsSettled (init "" "es-ES" "") ⟨0, false⟩
        [Event.start, Event.onResult "a", Event.onEnd, Event.start, Event.stop, Event.onEnd,
          Event.start] = true ∧
      (observeRun (init "" "es-ES" "") ⟨0, false⟩
        [Event.start, Event.onResult "a", Event.onEnd, Event.start, Event.stop, Event.onEnd,
          Event.start]).overlap = false :=
  ⟨by decide,
    (single_session_when_starts_settled "" "es-ES" ""
      [Event.start, Event.onResult "a", Event.onEnd, Event.start, Event.stop, Event.onEnd,
        Event.start] (by decide)).1⟩

end SpeechToText
